import Mathlib

/-!
Verification of the mail-scheduler service's scheduling engine and delivery
pipeline, shallowly embedded from the JavaScript source.

Modelled components:
* `Scheduler.*` — `src/utils/inMemoryScheduler.js` (the in-process timer
  store: a JS `Map` from jobId to an armed timer entry).
* `addEmailJob` / `removeEmailJob` / `rescheduleEmailJob` —
  `src/modules/email/email.queue.js` (the scheduling facade over either the
  in-memory scheduler or the BullMQ delayed-job queue, selected by
  `config.redis.enabled`).
* `processEmail` — `src/modules/email/email.processor.js` together with the
  service helpers `getEmailById` / `markEmailAsSent` / `markEmailAsFailed`
  from the email service module.
* `updateEmail` — the email service's update operation.

Conventions: timestamps are `Int` milliseconds since the epoch (`Date.getTime`
values); a JS `Map` is an association list whose keys are unique; fallible JS
store/transport behaviour is an explicit oracle recorded in an environment
record; a JS function that can throw returns a result carrying either a normal
value or the thrown error message, in both cases together with the state of
mutable stores at the moment control returns to the caller (side effects
performed before a throw persist).
-/

/-- Result of a JS call against mutable state `σ`: either a normal return of a
value in `α`, or a thrown error with message `msg`.  Both constructors carry
the state of the world when control leaves the function, since side effects
performed before a `throw` are not rolled back. -/
inductive JsRes (σ : Type) (α : Type) where
  | ok (val : α) (st : σ)
  | err (msg : String) (st : σ)
deriving Repr, DecidableEq

/-- The backing state carried by a `JsRes`, whether it returned or threw. -/
def JsRes.state {σ α : Type} : JsRes σ α → σ
  | .ok _ s => s
  | .err _ s => s

/-- `Map.get` on an association list: the value stored under `k`, if any. -/
def lookupL {β : Type} : List (String × β) → String → Option β
  | [], _ => none
  | (k, v) :: rest, key => if k = key then some v else lookupL rest key

/-- `Map.delete` on an association list: remove every entry keyed `k` (a JS
`Map` holds at most one, so this agrees with deleting that one). -/
def eraseL {β : Type} : List (String × β) → String → List (String × β)
  | [], _ => []
  | (k, v) :: rest, key => if k = key then eraseL rest key else (k, v) :: eraseL rest key

/-- `Map.set` on an association list: replace any entry keyed `k` by `(k, v)`. -/
def setL {β : Type} (l : List (String × β)) (key : String) (v : β) : List (String × β) :=
  eraseL l key ++ [(key, v)]

theorem lookupL_eraseL_self {β : Type} (l : List (String × β)) (key : String) :
    lookupL (eraseL l key) key = none := by
  induction l with
  | nil => rfl
  | cons p rest ih =>
    obtain ⟨k, v⟩ := p
    by_cases h : k = key
    · simp [eraseL, h, ih]
    · simp [eraseL, lookupL, h, ih]

theorem eraseL_of_lookupL_none {β : Type} (l : List (String × β)) (key : String)
    (h : lookupL l key = none) : eraseL l key = l := by
  induction l with
  | nil => rfl
  | cons p rest ih =>
    obtain ⟨k, v⟩ := p
    by_cases hk : k = key
    · simp [lookupL, hk] at h
    · simp [lookupL, hk] at h
      simp [eraseL, hk, ih h]

theorem eraseL_eraseL {β : Type} (l : List (String × β)) (key : String) :
    eraseL (eraseL l key) key = eraseL l key :=
  eraseL_of_lookupL_none _ _ (lookupL_eraseL_self l key)

theorem lookupL_append_self {β : Type} (l : List (String × β)) (key : String) (v : β)
    (h : lookupL l key = none) : lookupL (l ++ [(key, v)]) key = some v := by
  induction l with
  | nil => simp [lookupL]
  | cons p rest ih =>
    obtain ⟨k, w⟩ := p
    by_cases hk : k = key
    · simp [lookupL, hk] at h
    · simp [lookupL, hk] at h ⊢
      exact ih h

theorem lookupL_setL_self {β : Type} (l : List (String × β)) (key : String) (v : β) :
    lookupL (setL l key v) key = some v :=
  lookupL_append_self _ _ _ (lookupL_eraseL_self l key)

theorem mem_eraseL_key_ne {β : Type} (l : List (String × β)) (key : String)
    (p : String × β) (hp : p ∈ eraseL l key) : p.1 ≠ key := by
  induction l with
  | nil => simp [eraseL] at hp
  | cons q rest ih =>
    obtain ⟨k, v⟩ := q
    by_cases hk : k = key
    · simp only [eraseL, if_pos hk] at hp
      exact ih hp
    · simp only [eraseL, if_neg hk, List.mem_cons] at hp
      rcases hp with h | h
      · subst h; exact hk
      · exact ih h

/-! ### In-process timer store (`src/utils/inMemoryScheduler.js`)

`this.jobs` is a `Map` of `jobId -> { timeout, jobData, callback, scheduledAt }`.
The timeout handle and the callback closure have no observable structure beyond
the firing behaviour modelled by `Scheduler.fireTimer`, so an armed entry is
represented by its `scheduledAt` timestamp. -/

/-- One armed entry of the in-memory scheduler's job map: the absolute time
(ms epoch) the single-fire timer is armed for. -/
structure TimerEntry where
  scheduledAt : Int
deriving Repr, DecidableEq

/-- The in-memory scheduler's mutable state: the `jobId -> entry` map. -/
structure SchedState where
  jobs : List (String × TimerEntry)
deriving Repr, DecidableEq

namespace Scheduler

/-- `cancel(jobId)`: if an entry exists, clear its timeout, delete it from
the map and return `true`; otherwise return `false`. -/
def cancel (s : SchedState) (jobId : String) : Bool × SchedState :=
  match lookupL s.jobs jobId with
  | some _ => (true, { jobs := eraseL s.jobs jobId })
  | none => (false, s)

/-- `schedule(jobId, scheduledAt, callback, jobData)`: first `cancel(jobId)`,
then compute `delay = scheduledAt - now`; throw
`'Scheduled time must be in the future'` when `delay <= 0`; otherwise arm a
timer and `set` the entry, returning `jobId`. -/
def schedule (s : SchedState) (jobId : String) (scheduledAt now : Int) :
    JsRes SchedState String :=
  let s₁ : SchedState := (cancel s jobId).2
  let delay : Int := scheduledAt - now
  if delay ≤ 0 then
    .err "Scheduled time must be in the future" s₁
  else
    .ok jobId { jobs := setL s₁.jobs jobId { scheduledAt := scheduledAt } }

/-- `reschedule(jobId, newScheduledAt, ...)`: `cancel` then `schedule` under
the same `jobId`. -/
def reschedule (s : SchedState) (jobId : String) (newScheduledAt now : Int) :
    JsRes SchedState String :=
  schedule (cancel s jobId).2 jobId newScheduledAt now

/-- `clear()`: cancel every armed timer and empty the map. -/
def clearAll (_s : SchedState) : SchedState :=
  { jobs := [] }

/-- The body of the `setTimeout` closure armed by `schedule`: run the job's
callback inside `try { ... } catch { log }`, then delete the job's own entry.
The callback's outcome (normal return, or a thrown error message) is supplied
as an oracle; a thrown error is caught and logged, so the resulting state does
not depend on it. -/
def fireTimer (s : SchedState) (jobId : String) (cb : Except String Unit) : SchedState :=
  match cb with
  | .ok _ => { jobs := eraseL s.jobs jobId }
  | .error _ => { jobs := eraseL s.jobs jobId }

end Scheduler

/-! ### Distributed queue (BullMQ) and the scheduling facade
(`src/modules/email/email.queue.js`)

A BullMQ job is addressed by its explicit `jobId` and exposes `getState()`;
the facade branches on `config.redis.enabled` between the in-memory scheduler
and the queue. -/

/-- A BullMQ job state as returned by `job.getState()`. -/
inductive JobState where
  | waiting
  | delayed
  | active
  | completed
  | failed
deriving Repr, DecidableEq

/-- A job held by the BullMQ queue: its state and its remaining delay (ms). -/
structure QueueJob where
  state : JobState
  delay : Int
deriving Repr, DecidableEq

/-- The BullMQ email queue's jobs, addressed by their explicit `jobId`. -/
abbrev BullQueue := List (String × QueueJob)

/-- `queue.add(name, data, { delay, jobId })`: BullMQ ignores an add whose
`jobId` already exists in the queue; otherwise the job is enqueued delayed.
Either way the returned job's `id` is the supplied `jobId`. -/
def queueAdd (q : BullQueue) (jobId : String) (delay : Int) : BullQueue :=
  match lookupL q jobId with
  | some _ => q
  | none => q ++ [(jobId, { state := .delayed, delay := delay })]

/-- The whole scheduling backing: the mode flag `config.redis.enabled`, the
in-memory scheduler singleton and the BullMQ queue. -/
structure EmailSystem where
  redisEnabled : Bool
  sched : SchedState
  queue : BullQueue
deriving Repr, DecidableEq

/-- `addEmailJob(emailId, scheduledAt)`: with Redis disabled, delegate to
`inMemoryScheduler.schedule` (which validates the time itself) and return
`emailId`; with Redis enabled, compute `delay = scheduledAt - now`, throw
`'Scheduled time must be in the future'` when `delay <= 0`, else
`queue.add('send-email', { emailId }, { delay, jobId: emailId })` and return
the job's id.  The surrounding `try/catch` logs and rethrows, so errors
propagate unchanged. -/
def addEmailJob (sys : EmailSystem) (emailId : String) (scheduledAt now : Int) :
    JsRes EmailSystem String :=
  if sys.redisEnabled = false then
    match Scheduler.schedule sys.sched emailId scheduledAt now with
    | .ok _ s' => .ok emailId { sys with sched := s' }
    | .err m s' => .err m { sys with sched := s' }
  else
    let delay : Int := scheduledAt - now
    if delay ≤ 0 then
      .err "Scheduled time must be in the future" sys
    else
      .ok emailId { sys with queue := queueAdd sys.queue emailId delay }

/-- The `try` block of `removeEmailJob(jobId)`: with Redis disabled, cancel the
in-memory job; with Redis enabled, `getJob(jobId)` and, if found, `job.remove()`.
`removeFault` is the oracle for a backing error thrown by `job.remove()`
(for instance the lock error BullMQ raises for an active job): `some m` means
the removal throws with message `m`, leaving the queue unchanged. -/
def tryRemoveEmailJob (sys : EmailSystem) (jobId : String) (removeFault : Option String) :
    Except String EmailSystem :=
  if sys.redisEnabled = false then
    .ok { sys with sched := (Scheduler.cancel sys.sched jobId).2 }
  else
    match lookupL sys.queue jobId with
    | none => .ok sys
    | some _ =>
      match removeFault with
      | some m => .error m
      | none => .ok { sys with queue := eraseL sys.queue jobId }

/-- `removeEmailJob(jobId)`: the `try` block wrapped in
`catch (error) { logger.error(...) }` — a cleanup error is logged and
swallowed, never rethrown to the caller. -/
def removeEmailJob (sys : EmailSystem) (jobId : String) (removeFault : Option String) :
    EmailSystem :=
  match tryRemoveEmailJob sys jobId removeFault with
  | .ok s => s
  | .error _ => sys

/-- `rescheduleEmailJob(jobId, newScheduledAt)`: with Redis disabled, delegate
to `inMemoryScheduler.reschedule`; with Redis enabled, validate
`newDelay = newScheduledAt - now > 0` first, then `getJob(jobId)`: not found →
add a fresh job under the same id; state `completed` → throw; state `active` →
throw; otherwise `remove()` the existing job and `add` a new one under the same
`jobId` with the new delay, returning that id.  The surrounding `try/catch`
logs and rethrows. -/
def rescheduleEmailJob (sys : EmailSystem) (jobId : String) (newScheduledAt now : Int) :
    JsRes EmailSystem String :=
  if sys.redisEnabled = false then
    match Scheduler.reschedule sys.sched jobId newScheduledAt now with
    | .ok v s' => .ok v { sys with sched := s' }
    | .err m s' => .err m { sys with sched := s' }
  else
    let newDelay : Int := newScheduledAt - now
    if newDelay ≤ 0 then
      .err "Scheduled time must be in the future" sys
    else
      match lookupL sys.queue jobId with
      | none => .ok jobId { sys with queue := queueAdd sys.queue jobId newDelay }
      | some j =>
        if j.state = .completed then
          .err "Cannot reschedule a job that has already been completed" sys
        else if j.state = .active then
          .err "Cannot reschedule a job that is currently being processed" sys
        else
          .ok jobId { sys with queue := queueAdd (eraseL sys.queue jobId) jobId newDelay }

/-! ### Delivery pipeline (`src/modules/email/email.processor.js` and the
email service's store helpers)

The persisted message record for the processed id, and the behaviour of the
store and the outbound transport, are collected in a `ProcEnv` oracle. -/

/-- A persisted email's delivery status (`EMAIL_STATUS` in `utils/constants.js`). -/
inductive EmailStatus where
  | PENDING
  | SENT
  | FAILED
deriving Repr, DecidableEq

/-- The fields of the persisted message the delivery pipeline reads or writes. -/
structure EmailMessage where
  status : EmailStatus
  failureReason : Option String
deriving Repr, DecidableEq

/-- Outcome of `sendEmail` (`config/sendgrid.js`): it resolves
`{ success: true }`, resolves `{ success: false, error }` (the error field may
be absent or empty), or — for generality over transport behaviour — rejects
with an error message. -/
inductive SendOutcome where
  | success
  | failure (errorText : Option String)
  | raised (msg : String)
deriving Repr, DecidableEq

/-- The environment of one `processEmail(emailId)` run: the stored message
under that id (if any) and the behaviour oracles of the store and transport.
`loadFault = some m` means `getEmailById`'s `findByPk` throws `m`;
`markSentFault` / `markFailedFault` likewise make `markEmailAsSent` /
`markEmailAsFailed` throw (their own `findByPk` or `update` failing), leaving
the stored message unchanged. -/
structure ProcEnv where
  db : Option EmailMessage
  loadFault : Option String
  send : SendOutcome
  markSentFault : Option String
  markFailedFault : Option String
deriving Repr, DecidableEq

/-- JavaScript's `x || d` on the transport's error text: an absent or empty
error string falls back to the default. -/
def jsOrDefault (e : Option String) (d : String) : String :=
  match e with
  | none => d
  | some s => if s = "" then d else s

/-- `getEmailById(id)`: `findByPk`, throwing `'Email not found'` (with a 404
status) when the record is absent; a store fault propagates. -/
def getEmailByIdE (env : ProcEnv) : Except String EmailMessage :=
  match env.loadFault with
  | some m => .error m
  | none =>
    match env.db with
    | none => .error "Email not found"
    | some e => .ok e

/-- `markEmailAsSent(id)`: re-load the record; if present, update it to
status `SENT` with `failureReason: null`; a missing record is a silent no-op;
a store fault propagates (rethrown by its own catch). -/
def markEmailAsSentE (env : ProcEnv) : Except String (Option EmailMessage) :=
  match env.markSentFault with
  | some m => .error m
  | none =>
    match env.db with
    | none => .ok none
    | some e => .ok (some { e with status := .SENT, failureReason := none })

/-- `markEmailAsFailed(id, failureReason)`: re-load the record; if present,
update it to status `FAILED` with the given reason; a missing record is a
silent no-op; a store fault propagates. -/
def markEmailAsFailedE (env : ProcEnv) (reason : String) :
    Except String (Option EmailMessage) :=
  match env.markFailedFault with
  | some m => .error m
  | none =>
    match env.db with
    | none => .ok none
    | some e => .ok (some { e with status := .FAILED, failureReason := some reason })

/-- Observable outcome of a `processEmail` run: the stored message afterwards,
and whether the outbound transport was invoked. -/
structure ProcResult where
  db : Option EmailMessage
  transportCalled : Bool
deriving Repr, DecidableEq

/-- The `try` block of `processEmail(emailId)`: load the message; if its
status is no longer `PENDING`, return without touching the transport;
otherwise call `sendEmail` and mark the message `SENT` on
`result.success`, or `FAILED` with `result.error || 'Unknown error'`
otherwise.  An error result carries the thrown message and whether the
transport had been invoked before the throw; the stored message is unchanged
at every throw site (a mark that throws did not update it). -/
def tryProcessEmail (env : ProcEnv) : Except (String × Bool) (Option EmailMessage × Bool) :=
  match getEmailByIdE env with
  | .error m => .error (m, false)
  | .ok email =>
    if email.status ≠ .PENDING then
      .ok (env.db, false)
    else
      match env.send with
      | .raised m => .error (m, true)
      | .success =>
        match markEmailAsSentE env with
        | .ok db' => .ok (db', true)
        | .error m => .error (m, true)
      | .failure et =>
        match markEmailAsFailedE env (jsOrDefault et "Unknown error") with
        | .ok db' => .ok (db', true)
        | .error m => .error (m, true)

/-- `processEmail(emailId)`: the `try` block above, wrapped in
`catch (error)` which makes a best-effort `markEmailAsFailed(emailId,
error.message)`, itself wrapped in a `try/catch` that logs and swallows any
failure of the marking.  The function therefore always returns normally. -/
def processEmail (env : ProcEnv) : ProcResult :=
  match tryProcessEmail env with
  | .ok (db', tc) => { db := db', transportCalled := tc }
  | .error (m, tc) =>
    match markEmailAsFailedE env m with
    | .ok db' => { db := db', transportCalled := tc }
    | .error _ => { db := env.db, transportCalled := tc }

/-! ### Email service update path (email service module, `updateEmail`) -/

/-- The fields of the persisted email record that the update path touches. -/
structure EmailRecord where
  status : EmailStatus
  scheduledAt : Int
  jobId : Option String
deriving Repr, DecidableEq

/-- `updateEmail(id, updateData)`: load the record (`'Email not found'` when
absent); reject updates of an already-sent email; when `updateData.scheduledAt`
is present and differs from the stored one, remove the old job via
`removeEmailJob(email.jobId)` (best effort) and arm a new one via
`addEmailJob(id, updateData.scheduledAt)`, storing the returned id in the
record's `jobId`; finally apply the update.  `rescheduleEmailJob` is never
called on this path. -/
def updateEmail (sys : EmailSystem) (rec : Option EmailRecord) (id : String)
    (newScheduledAt : Option Int) (now : Int) (removeFault : Option String) :
    JsRes (EmailSystem × Option EmailRecord) EmailRecord :=
  match rec with
  | none => .err "Email not found" (sys, rec)
  | some email =>
    if email.status = .SENT then
      .err "Cannot update email that has already been sent" (sys, rec)
    else
      match newScheduledAt with
      | some t =>
        if t ≠ email.scheduledAt then
          let sys₁ : EmailSystem :=
            match email.jobId with
            | some j => removeEmailJob sys j removeFault
            | none => sys
          match addEmailJob sys₁ id t now with
          | .err m s₂ => .err m (s₂, rec)
          | .ok newJobId s₂ =>
            let email' : EmailRecord := { email with scheduledAt := t, jobId := some newJobId }
            .ok email' (s₂, some email')
        else
          .ok email (sys, some email)
      | none => .ok email (sys, some email)

/-- The in-memory scheduler's map invariant: at most one armed timer entry per
jobId. -/
def AtMostOnePerKey (s : SchedState) : Prop :=
  ∀ k : String, (s.jobs.filter (fun p => p.1 == k)).length ≤ 1

/-! ### Helper lemmas -/

theorem eraseL_sublist {β : Type} (l : List (String × β)) (key : String) :
    List.Sublist (eraseL l key) l := by
  induction l with
  | nil => simp [eraseL]
  | cons p rest ih =>
    obtain ⟨k, v⟩ := p
    by_cases hk : k = key
    · simp only [eraseL, if_pos hk]
      exact ih.cons _
    · simp only [eraseL, if_neg hk]
      exact ih.cons₂ _

theorem filter_eraseL_self {β : Type} (l : List (String × β)) (key : String) :
    (eraseL l key).filter (fun p => p.1 == key) = [] := by
  rw [List.filter_eq_nil_iff]
  intro p hp
  simpa using mem_eraseL_key_ne l key p hp

theorem cancel_snd_eq (s : SchedState) (jobId : String) :
    (Scheduler.cancel s jobId).2 = { jobs := eraseL s.jobs jobId } := by
  unfold Scheduler.cancel
  cases h : lookupL s.jobs jobId with
  | none =>
    simp only []
    cases s with
    | mk jobs => simp [eraseL_of_lookupL_none _ _ h]
  | some ent => simp only []

theorem atMostOne_erase (s : SchedState) (h : AtMostOnePerKey s) (key : String) :
    AtMostOnePerKey { jobs := eraseL s.jobs key } := by
  intro k
  exact le_trans (((eraseL_sublist s.jobs key).filter _).length_le) (h k)

theorem atMostOne_setL (s : SchedState) (h : AtMostOnePerKey s) (key : String)
    (v : TimerEntry) : AtMostOnePerKey { jobs := setL s.jobs key v } := by
  intro k
  show ((setL s.jobs key v).filter (fun p => p.1 == k)).length ≤ 1
  rw [setL, List.filter_append]
  by_cases hk : k = key
  · subst hk
    rw [filter_eraseL_self]
    simp
  · have hkk : (key == k) = false := by
      rw [beq_eq_false_iff_ne]
      exact fun hh => hk hh.symm
    have : (([(key, v)] : List (String × TimerEntry)).filter (fun p => p.1 == k)) = [] := by
      simp [List.filter, hkk]
    rw [this, List.append_nil]
    exact atMostOne_erase s h key k

theorem schedule_err_msg (s : SchedState) (jobId : String) (t now : Int)
    (m : String) (s' : SchedState)
    (h : Scheduler.schedule s jobId t now = .err m s') :
    m = "Scheduled time must be in the future" := by
  unfold Scheduler.schedule at h
  by_cases hd : t - now ≤ 0
  · simp only [if_pos hd, JsRes.err.injEq] at h
    exact h.1.symm
  · simp only [if_neg hd] at h
    cases h

theorem queueAdd_of_lookup_none (q : BullQueue) (jobId : String) (d : Int)
    (h : lookupL q jobId = none) :
    queueAdd q jobId d = q ++ [(jobId, { state := .delayed, delay := d })] := by
  unfold queueAdd
  rw [h]

/-! ### Claim theorems -/

/-- C10: in the in-process timer store, calling `schedule(jobId, dueAt)` with
`dueAt ≤ now` on a jobId that currently holds an armed timer cancels and
removes that existing timer before throwing
`'Scheduled time must be in the future'`: the rejected schedule is not atomic
with respect to previously armed state, and after the rejection no timer is
armed for that jobId. -/
theorem c10_schedule_past_removes_existing (s : SchedState) (jobId : String)
    (ent : TimerEntry) (t now : Int)
    (harmed : lookupL s.jobs jobId = some ent) (hpast : t ≤ now) :
    Scheduler.schedule s jobId t now =
      .err "Scheduled time must be in the future" { jobs := eraseL s.jobs jobId } ∧
    lookupL (eraseL s.jobs jobId) jobId = none := by
  refine ⟨?_, lookupL_eraseL_self _ _⟩
  have hd : t - now ≤ 0 := by omega
  simp [Scheduler.schedule, cancel_snd_eq, hd]

/-- Witness for C10 at a concrete armed state and past due time. -/
theorem c10_witness :
    lookupL [("A", ({ scheduledAt := 100 } : TimerEntry))] "A" = some { scheduledAt := 100 } ∧
    (5 : Int) ≤ 10 ∧
    (Scheduler.schedule { jobs := [("A", { scheduledAt := 100 })] } "A" 5 10 =
      .err "Scheduled time must be in the future"
        { jobs := eraseL [("A", { scheduledAt := 100 })] "A" } ∧
     lookupL (eraseL [("A", ({ scheduledAt := 100 } : TimerEntry))] "A") "A" = none) :=
  ⟨by decide, by decide,
    c10_schedule_past_removes_existing { jobs := [("A", { scheduledAt := 100 })] } "A"
      { scheduledAt := 100 } 5 10 (by decide) (by decide)⟩

/-- C5: the in-process timer store keeps at most one armed timer per jobId.
`schedule` is idempotent-replace — scheduling over a state behaves exactly as
scheduling over the state with any existing entry for that jobId cancelled
first — and `schedule`, `cancel`, `reschedule`, `clear` and a firing timer all
preserve the at-most-one-entry-per-jobId invariant; a timer that fires removes
its own map entry. -/
theorem c5_at_most_one_timer_per_job :
    (∀ (s : SchedState) (jobId : String) (t now : Int),
        Scheduler.schedule s jobId t now =
          Scheduler.schedule { jobs := eraseL s.jobs jobId } jobId t now) ∧
    (∀ (s : SchedState), AtMostOnePerKey s →
        ∀ (jobId : String) (t now : Int) (cb : Except String Unit),
          AtMostOnePerKey (Scheduler.schedule s jobId t now).state ∧
          AtMostOnePerKey (Scheduler.cancel s jobId).2 ∧
          AtMostOnePerKey (Scheduler.reschedule s jobId t now).state ∧
          AtMostOnePerKey (Scheduler.clearAll s) ∧
          AtMostOnePerKey (Scheduler.fireTimer s jobId cb)) ∧
    (∀ (s : SchedState) (jobId : String) (cb : Except String Unit),
        lookupL (Scheduler.fireTimer s jobId cb).jobs jobId = none) := by
  refine ⟨?_, ?_, ?_⟩
  · intro s jobId t now
    unfold Scheduler.schedule
    rw [cancel_snd_eq, cancel_snd_eq]
    simp [eraseL_eraseL]
  · intro s hs jobId t now cb
    refine ⟨?_, ?_, ?_, ?_, ?_⟩
    · by_cases hd : t - now ≤ 0
      · simp only [Scheduler.schedule, cancel_snd_eq, if_pos hd, JsRes.state]
        exact atMostOne_erase s hs jobId
      · simp only [Scheduler.schedule, cancel_snd_eq, if_neg hd, JsRes.state]
        exact atMostOne_setL _ (atMostOne_erase s hs jobId) jobId _
    · rw [cancel_snd_eq]
      exact atMostOne_erase s hs jobId
    · unfold Scheduler.reschedule
      by_cases hd : t - now ≤ 0
      · simp only [Scheduler.schedule, cancel_snd_eq, if_pos hd, JsRes.state, eraseL_eraseL]
        exact atMostOne_erase s hs jobId
      · simp only [Scheduler.schedule, cancel_snd_eq, if_neg hd, JsRes.state, eraseL_eraseL]
        exact atMostOne_setL _ (atMostOne_erase s hs jobId) jobId _
    · intro k
      simp [Scheduler.clearAll, List.filter]
    · cases cb <;> exact atMostOne_erase s hs jobId
  · intro s jobId cb
    cases cb <;> exact lookupL_eraseL_self _ _

/-- Witness for C5 at concrete states. -/
theorem c5_witness :
    AtMostOnePerKey { jobs := [("A", { scheduledAt := 100 })] } ∧
    (Scheduler.schedule { jobs := [("A", { scheduledAt := 100 })] } "A" 200 50 =
      Scheduler.schedule { jobs := eraseL [("A", { scheduledAt := 100 })] "A" } "A" 200 50) ∧
    AtMostOnePerKey
      (Scheduler.schedule { jobs := [("A", { scheduledAt := 100 })] } "A" 200 50).state ∧
    lookupL (Scheduler.fireTimer { jobs := [("A", { scheduledAt := 100 })] } "A" (.ok ())).jobs
      "A" = none := by
  have hwf : AtMostOnePerKey { jobs := [("A", ({ scheduledAt := 100 } : TimerEntry))] } := by
    intro k
    cases h : ("A" == k) <;> simp [List.filter, h]
  exact ⟨hwf, c5_at_most_one_timer_per_job.1 _ "A" 200 50,
    (c5_at_most_one_timer_per_job.2.1 _ hwf "A" 200 50 (.ok ())).1,
    c5_at_most_one_timer_per_job.2.2 _ "A" (.ok ())⟩

/-- C7: rescheduling an armed job to a valid future time returns the same
jobId and preserves it in the backing store's view, changing only the due
time: in the in-process store the jobId's single entry is armed for the new
time (no entry for that jobId remains at the old time), and in the distributed
queue the job addressed by that jobId is re-added delayed with the new delay. -/
theorem c7_reschedule_preserves_jobid :
    (∀ (s : SchedState) (jobId : String) (ent : TimerEntry) (newAt now : Int),
        lookupL s.jobs jobId = some ent → now < newAt →
        ∃ s', Scheduler.reschedule s jobId newAt now = .ok jobId s' ∧
          lookupL s'.jobs jobId = some { scheduledAt := newAt } ∧
          ∀ p ∈ s'.jobs, p.1 = jobId → p.2 = { scheduledAt := newAt }) ∧
    (∀ (sys : EmailSystem) (jobId : String) (j : QueueJob) (newAt now : Int),
        sys.redisEnabled = true → lookupL sys.queue jobId = some j →
        (j.state = .waiting ∨ j.state = .delayed) → now < newAt →
        ∃ s', rescheduleEmailJob sys jobId newAt now = .ok jobId s' ∧
          lookupL s'.queue jobId = some { state := .delayed, delay := newAt - now }) := by
  constructor
  · intro s jobId ent newAt now hfound hlt
    refine ⟨{ jobs := setL (eraseL s.jobs jobId) jobId { scheduledAt := newAt } }, ?_, ?_, ?_⟩
    · have hd : ¬ (newAt - now ≤ 0) := by omega
      unfold Scheduler.reschedule Scheduler.schedule
      rw [cancel_snd_eq, cancel_snd_eq]
      simp [hd, eraseL_eraseL]
    · exact lookupL_setL_self _ _ _
    · intro p hp hpk
      rcases List.mem_append.mp hp with h | h
      · exact absurd hpk (mem_eraseL_key_ne _ _ _ h)
      · rcases List.mem_singleton.mp h with rfl
        rfl
  · intro sys jobId j newAt now hre hfound hst hlt
    refine ⟨{ sys with queue := queueAdd (eraseL sys.queue jobId) jobId (newAt - now) }, ?_, ?_⟩
    · have hd : ¬ (newAt - now ≤ 0) := by omega
      have hc : ¬ (j.state = .completed) := by rcases hst with h | h <;> simp [h]
      have ha : ¬ (j.state = .active) := by rcases hst with h | h <;> simp [h]
      simp [rescheduleEmailJob, hre, hd, hfound, hc, ha]
    · rw [queueAdd_of_lookup_none _ _ _ (lookupL_eraseL_self _ _)]
      exact lookupL_append_self _ _ _ (lookupL_eraseL_self _ _)

/-- Witness for C7: reschedule a concrete armed job in both modes. -/
theorem c7_witness :
    (lookupL [("A", ({ scheduledAt := 100 } : TimerEntry))] "A" = some { scheduledAt := 100 } ∧
     (50 : Int) < 200 ∧
     ∃ s', Scheduler.reschedule { jobs := [("A", { scheduledAt := 100 })] } "A" 200 50 =
        .ok "A" s' ∧
       lookupL s'.jobs "A" = some { scheduledAt := 200 } ∧
       ∀ p ∈ s'.jobs, p.1 = "A" → p.2 = { scheduledAt := 200 }) ∧
    (∃ s', rescheduleEmailJob
        { redisEnabled := true, sched := { jobs := [] },
          queue := [("A", { state := .delayed, delay := 30 })] } "A" 200 50 = .ok "A" s' ∧
      lookupL s'.queue "A" = some { state := .delayed, delay := 150 }) :=
  ⟨⟨by decide, by decide,
      c7_reschedule_preserves_jobid.1 { jobs := [("A", { scheduledAt := 100 })] } "A"
        { scheduledAt := 100 } 200 50 (by decide) (by decide)⟩,
    c7_reschedule_preserves_jobid.2
      { redisEnabled := true, sched := { jobs := [] },
        queue := [("A", { state := .delayed, delay := 30 })] } "A"
      { state := .delayed, delay := 30 } 200 50 rfl (by decide) (Or.inr rfl) (by decide)⟩

/-- C2 (counterexample to the claim as stated): in distributed mode,
`rescheduleEmailJob` validates the new time before looking up the existing
job, so rescheduling an already-enqueued jobId to a past time throws
`'Scheduled time must be in the future'` but leaves the previously enqueued
job for that jobId in place — the post-state still holds an enqueued job for
the jobId, contradicting "leave no armed timer or enqueued job for that
jobId". -/
theorem c2_counterexample :
    rescheduleEmailJob
        { redisEnabled := true, sched := { jobs := [] },
          queue := [("A", { state := .delayed, delay := 50 })] } "A" 5 10 =
      .err "Scheduled time must be in the future"
        { redisEnabled := true, sched := { jobs := [] },
          queue := [("A", { state := .delayed, delay := 50 })] } ∧
    lookupL (rescheduleEmailJob
        { redisEnabled := true, sched := { jobs := [] },
          queue := [("A", { state := .delayed, delay := 50 })] } "A" 5 10).state.queue "A" =
      some { state := .delayed, delay := 50 } := by
  constructor <;> decide

/-- C2 (amended): for every `dueAt ≤ now`, `scheduleJob` (`addEmailJob`) and
`rescheduleJob` (`rescheduleEmailJob`) in both backing modes throw
`InvalidScheduleTime` (`'Scheduled time must be in the future'`) and arm
nothing new: the distributed queue is left exactly unchanged (so a
pre-existing enqueued job for that jobId remains), and in in-process mode no
timer remains armed for that jobId (any existing timer was cancelled before
the time check). -/
theorem c2_amended_invalid_schedule_time (sys : EmailSystem) (jobId : String)
    (dueAt now : Int) (h : dueAt ≤ now) :
    (∃ s₁, addEmailJob sys jobId dueAt now =
        .err "Scheduled time must be in the future" s₁ ∧
       s₁.queue = sys.queue ∧
       (sys.redisEnabled = false → lookupL s₁.sched.jobs jobId = none) ∧
       (sys.redisEnabled = true → s₁ = sys)) ∧
    (∃ s₂, rescheduleEmailJob sys jobId dueAt now =
        .err "Scheduled time must be in the future" s₂ ∧
       s₂.queue = sys.queue ∧
       (sys.redisEnabled = false → lookupL s₂.sched.jobs jobId = none) ∧
       (sys.redisEnabled = true → s₂ = sys)) := by
  have hd : dueAt - now ≤ 0 := by omega
  cases hre : sys.redisEnabled with
  | false =>
    constructor
    · refine ⟨{ sys with sched := { jobs := eraseL sys.sched.jobs jobId } }, ?_, rfl, ?_, ?_⟩
      · simp [addEmailJob, hre, Scheduler.schedule, cancel_snd_eq, hd]
      · intro _
        exact lookupL_eraseL_self _ _
      · intro hcontra
        simp at hcontra
    · refine ⟨{ sys with sched := { jobs := eraseL sys.sched.jobs jobId } }, ?_, rfl, ?_, ?_⟩
      · simp [rescheduleEmailJob, hre, Scheduler.reschedule, Scheduler.schedule,
          cancel_snd_eq, hd, eraseL_eraseL]
      · intro _
        exact lookupL_eraseL_self _ _
      · intro hcontra
        simp at hcontra
  | true =>
    constructor
    · refine ⟨sys, ?_, rfl, ?_, fun _ => rfl⟩
      · simp [addEmailJob, hre, hd]
      · intro hcontra
        simp at hcontra
    · refine ⟨sys, ?_, rfl, ?_, fun _ => rfl⟩
      · simp [rescheduleEmailJob, hre, hd]
      · intro hcontra
        simp at hcontra

/-- Witness for the amended C2 at a concrete in-process state with an armed
timer and a past due time. -/
theorem c2_amended_witness :
    (5 : Int) ≤ 10 ∧
    ((∃ s₁, addEmailJob
          { redisEnabled := false, sched := { jobs := [("A", { scheduledAt := 8 })] },
            queue := [] } "A" 5 10 = .err "Scheduled time must be in the future" s₁ ∧
        s₁.queue = [] ∧
        (false = false → lookupL s₁.sched.jobs "A" = none) ∧
        (false = true → s₁ =
          { redisEnabled := false, sched := { jobs := [("A", { scheduledAt := 8 })] },
            queue := [] })) ∧
     (∃ s₂, rescheduleEmailJob
          { redisEnabled := false, sched := { jobs := [("A", { scheduledAt := 8 })] },
            queue := [] } "A" 5 10 = .err "Scheduled time must be in the future" s₂ ∧
        s₂.queue = [] ∧
        (false = false → lookupL s₂.sched.jobs "A" = none) ∧
        (false = true → s₂ =
          { redisEnabled := false, sched := { jobs := [("A", { scheduledAt := 8 })] },
            queue := [] }))) :=
  ⟨by decide,
    c2_amended_invalid_schedule_time
      { redisEnabled := false, sched := { jobs := [("A", { scheduledAt := 8 })] },
        queue := [] } "A" 5 10 (by decide)⟩

/-- C6: in distributed mode, `rescheduleEmailJob(jobId, newDueAt)` with a
valid future time acts by case on the backing job: no job under that id →
a fresh delayed job is created under the same jobId; state `completed` →
throws `AlreadyCompleted` and removes nothing; state `active` → throws
`InFlight` and removes nothing; otherwise the existing job is removed and a
new delayed job is added under the same jobId with the new delay. -/
theorem c6_distributed_reschedule_cases (sys : EmailSystem) (jobId : String)
    (newAt now : Int) (hre : sys.redisEnabled = true) (hf : now < newAt) :
    (lookupL sys.queue jobId = none →
        rescheduleEmailJob sys jobId newAt now =
          .ok jobId { sys with queue := queueAdd sys.queue jobId (newAt - now) } ∧
        lookupL (queueAdd sys.queue jobId (newAt - now)) jobId =
          some { state := .delayed, delay := newAt - now }) ∧
    (∀ j, lookupL sys.queue jobId = some j → j.state = .completed →
        rescheduleEmailJob sys jobId newAt now =
          .err "Cannot reschedule a job that has already been completed" sys) ∧
    (∀ j, lookupL sys.queue jobId = some j → j.state = .active →
        rescheduleEmailJob sys jobId newAt now =
          .err "Cannot reschedule a job that is currently being processed" sys) ∧
    (∀ j, lookupL sys.queue jobId = some j → j.state ≠ .completed → j.state ≠ .active →
        ∃ s', rescheduleEmailJob sys jobId newAt now = .ok jobId s' ∧
          lookupL s'.queue jobId = some { state := .delayed, delay := newAt - now }) := by
  have hd : ¬ (newAt - now ≤ 0) := by omega
  refine ⟨?_, ?_, ?_, ?_⟩
  · intro hnone
    constructor
    · simp [rescheduleEmailJob, hre, hd, hnone]
    · rw [queueAdd_of_lookup_none _ _ _ hnone]
      exact lookupL_append_self _ _ _ hnone
  · intro j hj hst
    simp [rescheduleEmailJob, hre, hd, hj, hst]
  · intro j hj hst
    have hc : ¬ (j.state = .completed) := by simp [hst]
    simp [rescheduleEmailJob, hre, hd, hj, hst, hc]
  · intro j hj hc ha
    refine ⟨{ sys with queue := queueAdd (eraseL sys.queue jobId) jobId (newAt - now) }, ?_, ?_⟩
    · simp [rescheduleEmailJob, hre, hd, hj, hc, ha]
    · rw [queueAdd_of_lookup_none _ _ _ (lookupL_eraseL_self _ _)]
      exact lookupL_append_self _ _ _ (lookupL_eraseL_self _ _)

/-- Witness for C6: the completed-job case at a concrete queue. -/
theorem c6_witness :
    ({ redisEnabled := true, sched := { jobs := [] },
        queue := [("A", { state := .completed, delay := 0 })] } : EmailSystem).redisEnabled =
      true ∧
    (50 : Int) < 200 ∧
    lookupL [("A", ({ state := .completed, delay := 0 } : QueueJob))] "A" =
      some { state := .completed, delay := 0 } ∧
    rescheduleEmailJob
        { redisEnabled := true, sched := { jobs := [] },
          queue := [("A", { state := .completed, delay := 0 })] } "A" 200 50 =
      .err "Cannot reschedule a job that has already been completed"
        { redisEnabled := true, sched := { jobs := [] },
          queue := [("A", { state := .completed, delay := 0 })] } :=
  ⟨rfl, by decide, by decide,
    (c6_distributed_reschedule_cases
        { redisEnabled := true, sched := { jobs := [] },
          queue := [("A", { state := .completed, delay := 0 })] } "A" 200 50 rfl
        (by decide)).2.1
      { state := .completed, delay := 0 } (by decide) rfl⟩

/-- C8: the in-process `cancel(jobId)` returns `true` exactly when an armed
job with that jobId is present (`false` for a non-existent or already-fired
job, which is not an error), and the facade-level `removeEmailJob` never
propagates an error: when its `try` block throws, the error is caught and the
caller sees an unchanged system. -/
theorem c8_cancel_result_and_swallowed_cleanup :
    (∀ (s : SchedState) (jobId : String),
        (Scheduler.cancel s jobId).1 = true ↔ (lookupL s.jobs jobId).isSome = true) ∧
    (∀ (s : SchedState) (jobId : String) (cb : Except String Unit),
        (Scheduler.cancel (Scheduler.fireTimer s jobId cb) jobId).1 = false) ∧
    (∀ (sys : EmailSystem) (jobId : String) (fault : Option String) (m : String),
        tryRemoveEmailJob sys jobId fault = .error m →
          removeEmailJob sys jobId fault = sys) := by
  refine ⟨?_, ?_, ?_⟩
  · intro s jobId
    cases h : lookupL s.jobs jobId <;> simp [Scheduler.cancel, h]
  · intro s jobId cb
    have hnone : lookupL (Scheduler.fireTimer s jobId cb).jobs jobId = none := by
      cases cb <;> exact lookupL_eraseL_self _ _
    simp [Scheduler.cancel, hnone]
  · intro sys jobId fault m h
    simp [removeEmailJob, h]

/-- Witness for C8: a faulting distributed removal is swallowed, and cancel's
boolean at a concrete armed state. -/
theorem c8_witness :
    tryRemoveEmailJob
        { redisEnabled := true, sched := { jobs := [] },
          queue := [("A", { state := .delayed, delay := 30 })] } "A" (some "lock lost") =
      .error "lock lost" ∧
    removeEmailJob
        { redisEnabled := true, sched := { jobs := [] },
          queue := [("A", { state := .delayed, delay := 30 })] } "A" (some "lock lost") =
      { redisEnabled := true, sched := { jobs := [] },
        queue := [("A", { state := .delayed, delay := 30 })] } ∧
    ((Scheduler.cancel { jobs := [("A", { scheduledAt := 9 })] } "A").1 = true ↔
      (lookupL [("A", ({ scheduledAt := 9 } : TimerEntry))] "A").isSome = true) := by
  refine ⟨?_, ?_, ?_⟩
  · rfl
  · exact c8_cancel_result_and_swallowed_cleanup.2.2 _ "A" (some "lock lost") "lock lost"
      (by rfl)
  · exact c8_cancel_result_and_swallowed_cleanup.1 _ "A"

/-- The idempotency guard of `processEmail`: a successfully loaded message
whose status is no longer `PENDING` is returned untouched without invoking
the transport. -/
theorem processEmail_guard (env : ProcEnv) (e : EmailMessage)
    (hl : env.loadFault = none) (hdb : env.db = some e) (hst : e.status ≠ .PENDING) :
    processEmail env = { db := env.db, transportCalled := false } := by
  simp [processEmail, tryProcessEmail, getEmailByIdE, hl, hdb, hst]

/-- After any fault-free-load run of `processEmail`, the stored message is
either unchanged or carries a non-`PENDING` status. -/
theorem processEmail_post (env : ProcEnv) (hl : env.loadFault = none) :
    (processEmail env).db = env.db ∨
    ∃ e, (processEmail env).db = some e ∧ e.status ≠ .PENDING := by
  rcases env with ⟨db, lf, snd, msf, mff⟩
  simp only [] at hl
  subst hl
  cases db with
  | none =>
    left
    cases mff <;>
      simp [processEmail, tryProcessEmail, getEmailByIdE, markEmailAsFailedE]
  | some e =>
    cases hst : e.status with
    | SENT =>
      left
      rw [processEmail_guard _ e rfl rfl (by simp [hst])]
    | FAILED =>
      left
      rw [processEmail_guard _ e rfl rfl (by simp [hst])]
    | PENDING =>
      cases snd with
      | success =>
        cases msf with
        | none =>
          right
          refine ⟨{ e with status := .SENT, failureReason := none }, ?_, by simp⟩
          simp [processEmail, tryProcessEmail, getEmailByIdE, markEmailAsSentE, hst]
        | some m =>
          cases mff with
          | none =>
            right
            refine ⟨{ e with status := .FAILED, failureReason := some m }, ?_, by simp⟩
            simp [processEmail, tryProcessEmail, getEmailByIdE, markEmailAsSentE,
              markEmailAsFailedE, hst]
          | some fm =>
            left
            simp [processEmail, tryProcessEmail, getEmailByIdE, markEmailAsSentE,
              markEmailAsFailedE, hst]
      | failure et =>
        cases mff with
        | none =>
          right
          refine ⟨{ e with status := .FAILED, failureReason := some (jsOrDefault et "Unknown error") }, ?_, by simp⟩
          simp [processEmail, tryProcessEmail, getEmailByIdE, markEmailAsFailedE, hst]
        | some fm =>
          left
          simp [processEmail, tryProcessEmail, getEmailByIdE, markEmailAsFailedE, hst]
      | raised m =>
        cases mff with
        | none =>
          right
          refine ⟨{ e with status := .FAILED, failureReason := some m }, ?_, by simp⟩
          simp [processEmail, tryProcessEmail, getEmailByIdE, markEmailAsFailedE, hst]
        | some fm =>
          left
          simp [processEmail, tryProcessEmail, getEmailByIdE, markEmailAsFailedE, hst]

/-- C1: for a message whose status is not `PENDING`, `processEmail` is a
no-op — it returns without calling the outbound transport and leaves the
stored message (status and failure reason) unchanged; consequently running
`processEmail` twice in the same environment cannot change the stored message
beyond what the first run did: the second run leaves the first run's store
untouched. -/
theorem c1_nonpending_is_noop (env : ProcEnv) (hl : env.loadFault = none) :
    (∀ e, env.db = some e → e.status ≠ .PENDING →
        processEmail env = { db := env.db, transportCalled := false }) ∧
    (processEmail { env with db := (processEmail env).db }).db = (processEmail env).db := by
  constructor
  · intro e hdb hst
    exact processEmail_guard env e hl hdb hst
  · rcases processEmail_post env hl with h | ⟨e, h, hst⟩
    · rw [h]
      have heta : ({ env with db := env.db } : ProcEnv) = env := rfl
      rw [heta]
      exact h
    · rw [h]
      rw [processEmail_guard { env with db := some e } e hl rfl hst]

/-- Witness for C1 at a concrete already-sent message. -/
theorem c1_witness :
    ({ db := some { status := .SENT, failureReason := none }, loadFault := none,
        send := .success, markSentFault := none, markFailedFault := none } :
      ProcEnv).loadFault = none ∧
    processEmail
        { db := some { status := .SENT, failureReason := none }, loadFault := none,
          send := .success, markSentFault := none, markFailedFault := none } =
      { db := some { status := .SENT, failureReason := none }, transportCalled := false } ∧
    (processEmail
        { db := (processEmail
            { db := some { status := .SENT, failureReason := none }, loadFault := none,
              send := .success, markSentFault := none, markFailedFault := none }).db,
          loadFault := none, send := .success, markSentFault := none,
          markFailedFault := none }).db =
      (processEmail
        { db := some { status := .SENT, failureReason := none }, loadFault := none,
          send := .success, markSentFault := none, markFailedFault := none }).db :=
  ⟨rfl,
    (c1_nonpending_is_noop
        { db := some { status := .SENT, failureReason := none }, loadFault := none,
          send := .success, markSentFault := none, markFailedFault := none } rfl).1
      { status := .SENT, failureReason := none } rfl (by decide),
    (c1_nonpending_is_noop
        { db := some { status := .SENT, failureReason := none }, loadFault := none,
          send := .success, markSentFault := none, markFailedFault := none } rfl).2⟩

/-- C3: on a `PENDING` message with a healthy store, a successful transport
send marks the message `SENT` with `failureReason` cleared to `null`, and a
failed send marks it `FAILED` with `failureReason` equal to
`result.error || 'Unknown error'` — the transport's error text, or
`'Unknown error'` when the transport gives none (absent or empty). -/
theorem c3_transport_outcome_recorded (env : ProcEnv) (e : EmailMessage)
    (hdb : env.db = some e) (hp : e.status = .PENDING) (hl : env.loadFault = none)
    (hs : env.markSentFault = none) (hf : env.markFailedFault = none) :
    (env.send = .success →
        processEmail env =
          { db := some { status := .SENT, failureReason := none },
            transportCalled := true }) ∧
    (∀ et, env.send = .failure et →
        processEmail env =
          { db := some { status := .FAILED, failureReason := some (jsOrDefault et "Unknown error") },
            transportCalled := true }) := by
  constructor
  · intro hsend
    simp [processEmail, tryProcessEmail, getEmailByIdE, markEmailAsSentE, hl, hs, hdb, hp,
      hsend]
  · intro et hsend
    simp [processEmail, tryProcessEmail, getEmailByIdE, markEmailAsFailedE, hl, hf, hdb, hp,
      hsend]

/-- Witness for C3: a concrete successful send and a concrete failed send
with error text "blocked". -/
theorem c3_witness :
    processEmail
        { db := some { status := .PENDING, failureReason := none }, loadFault := none,
          send := .success, markSentFault := none, markFailedFault := none } =
      { db := some { status := .SENT, failureReason := none }, transportCalled := true } ∧
    processEmail
        { db := some { status := .PENDING, failureReason := none }, loadFault := none,
          send := .failure (some "blocked"), markSentFault := none,
          markFailedFault := none } =
      { db := some { status := .FAILED, failureReason := some (jsOrDefault (some "blocked") "Unknown error") },
        transportCalled := true } :=
  ⟨(c3_transport_outcome_recorded
      { db := some { status := .PENDING, failureReason := none }, loadFault := none,
        send := .success, markSentFault := none, markFailedFault := none }
      { status := .PENDING, failureReason := none } rfl rfl rfl rfl rfl).1 rfl,
    (c3_transport_outcome_recorded
      { db := some { status := .PENDING, failureReason := none }, loadFault := none,
        send := .failure (some "blocked"), markSentFault := none, markFailedFault := none }
      { status := .PENDING, failureReason := none } rfl rfl rfl rfl rfl).2
      (some "blocked") rfl⟩

/-- C4: `processEmail` never propagates an exception: whenever its `try` block
throws (store load fault, transport rejection, or a failing status update),
the catch makes a best-effort `markEmailAsFailed` with the thrown message —
recording status `FAILED` with that reason when the store cooperates, leaving
the store untouched (and still returning normally) when even the marking
throws, and doing nothing when no record exists; likewise the in-process
timer store catches exceptions thrown by a job's callback, so a firing
timer's effect on the timer map is identical whether the callback throws or
returns. -/
theorem c4_pipeline_never_throws :
    (∀ (env : ProcEnv) (m : String) (tc : Bool),
        tryProcessEmail env = .error (m, tc) →
          ((∀ e, env.db = some e → env.markFailedFault = none →
              processEmail env =
                { db := some { status := .FAILED, failureReason := some m },
                  transportCalled := tc }) ∧
           (env.db = none → processEmail env = { db := none, transportCalled := tc }) ∧
           (∀ fm, env.markFailedFault = some fm →
              processEmail env = { db := env.db, transportCalled := tc }))) ∧
    (∀ (s : SchedState) (jobId : String) (em : String),
        Scheduler.fireTimer s jobId (.error em) = Scheduler.fireTimer s jobId (.ok ())) := by
  constructor
  · intro env m tc h
    refine ⟨?_, ?_, ?_⟩
    · intro e hdb hmf
      simp [processEmail, h, markEmailAsFailedE, hmf, hdb]
    · intro hdb
      cases hmf : env.markFailedFault <;>
        simp [processEmail, h, markEmailAsFailedE, hmf, hdb]
    · intro fm hmf
      simp [processEmail, h, markEmailAsFailedE, hmf]
  · intro s jobId em
    rfl

/-- Witness for C4: a store whose load throws "DB down"; the run returns
normally with the message marked `FAILED`/"DB down". -/
theorem c4_witness :
    tryProcessEmail
        { db := some { status := .PENDING, failureReason := none },
          loadFault := some "DB down", send := .success, markSentFault := none,
          markFailedFault := none } =
      .error ("DB down", false) ∧
    processEmail
        { db := some { status := .PENDING, failureReason := none },
          loadFault := some "DB down", send := .success, markSentFault := none,
          markFailedFault := none } =
      { db := some { status := .FAILED, failureReason := some "DB down" },
        transportCalled := false } :=
  ⟨rfl,
    (c4_pipeline_never_throws.1
        { db := some { status := .PENDING, failureReason := none },
          loadFault := some "DB down", send := .success, markSentFault := none,
          markFailedFault := none } "DB down" false rfl).1
      { status := .PENDING, failureReason := none } rfl rfl⟩

/-- `addEmailJob` returns the emailId it was given as the job id, in both
backing modes. -/
theorem addEmailJob_ok_val (sys : EmailSystem) (emailId : String) (t now : Int)
    (v : String) (st : EmailSystem) (h : addEmailJob sys emailId t now = .ok v st) :
    v = emailId := by
  unfold addEmailJob at h
  by_cases hre : sys.redisEnabled = false
  · rw [if_pos hre] at h
    cases hs : Scheduler.schedule sys.sched emailId t now with
    | ok v₀ s₀ =>
      simp only [hs] at h
      cases h
      rfl
    | err m₀ s₀ =>
      simp only [hs] at h
      cases h
  · rw [if_neg hre] at h
    by_cases hd : t - now ≤ 0
    · simp only [if_pos hd] at h
      cases h
    · simp only [if_neg hd] at h
      cases h
      rfl

/-- The only error `addEmailJob` throws is the invalid-schedule-time one. -/
theorem addEmailJob_err_msg (sys : EmailSystem) (emailId : String) (t now : Int)
    (m : String) (st : EmailSystem) (h : addEmailJob sys emailId t now = .err m st) :
    m = "Scheduled time must be in the future" := by
  unfold addEmailJob at h
  by_cases hre : sys.redisEnabled = false
  · rw [if_pos hre] at h
    cases hs : Scheduler.schedule sys.sched emailId t now with
    | ok v₀ s₀ =>
      simp only [hs] at h
      cases h
    | err m₀ s₀ =>
      simp only [hs] at h
      cases h
      exact schedule_err_msg _ _ _ _ _ _ hs
  · rw [if_neg hre] at h
    by_cases hd : t - now ≤ 0
    · simp only [if_pos hd] at h
      cases h
      rfl
    · simp only [if_neg hd] at h
      cases h

/-- C9: an update that changes an email's `scheduledAt` goes through
best-effort `removeEmailJob` followed by `addEmailJob` under the email's id
(never `rescheduleEmailJob`): no error this path throws is the
`AlreadyCompleted` or `InFlight` reschedule conflict, whatever the backing
job's state, `addEmailJob` returns the email's id, and the updated record's
`jobId` field is set to that returned id. -/
theorem c9_update_reschedules_via_add :
    (∀ (sys : EmailSystem) (rec : Option EmailRecord) (id : String) (upd : Option Int)
        (now : Int) (fault : Option String) (m : String)
        (st : EmailSystem × Option EmailRecord),
        updateEmail sys rec id upd now fault = .err m st →
          m ≠ "Cannot reschedule a job that has already been completed" ∧
          m ≠ "Cannot reschedule a job that is currently being processed") ∧
    (∀ (sys : EmailSystem) (id : String) (t now : Int) (v : String) (st : EmailSystem),
        addEmailJob sys id t now = .ok v st → v = id) ∧
    (∀ (sys : EmailSystem) (e : EmailRecord) (id : String) (t now : Int)
        (fault : Option String) (e' : EmailRecord)
        (st : EmailSystem × Option EmailRecord),
        t ≠ e.scheduledAt →
        updateEmail sys (some e) id (some t) now fault = .ok e' st →
          e'.jobId = some id) := by
  refine ⟨?_, ?_, ?_⟩
  · intro sys rec id upd now fault m st h
    cases rec with
    | none =>
      simp only [updateEmail] at h
      cases h
      exact ⟨by decide, by decide⟩
    | some email =>
      simp only [updateEmail] at h
      by_cases hsent : email.status = .SENT
      · rw [if_pos hsent] at h
        cases h
        exact ⟨by decide, by decide⟩
      · rw [if_neg hsent] at h
        cases upd with
        | none => cases h
        | some t =>
          by_cases ht : t ≠ email.scheduledAt
          · simp only [if_pos ht] at h
            cases hjob : email.jobId with
            | none =>
              simp only [hjob] at h
              cases haj : addEmailJob sys id t now with
              | ok v s₂ =>
                simp only [haj] at h
                cases h
              | err m₀ s₂ =>
                simp only [haj] at h
                cases h
                have hm := addEmailJob_err_msg _ _ _ _ _ _ haj
                subst hm
                exact ⟨by decide, by decide⟩
            | some j =>
              simp only [hjob] at h
              cases haj : addEmailJob (removeEmailJob sys j fault) id t now with
              | ok v s₂ =>
                simp only [haj] at h
                cases h
              | err m₀ s₂ =>
                simp only [haj] at h
                cases h
                have hm := addEmailJob_err_msg _ _ _ _ _ _ haj
                subst hm
                exact ⟨by decide, by decide⟩
          · simp only [if_neg ht] at h
            cases h
  · intro sys id t now v st h
    exact addEmailJob_ok_val _ _ _ _ _ _ h
  · intro sys e id t now fault e' st ht h
    simp only [updateEmail] at h
    by_cases hsent : e.status = .SENT
    · rw [if_pos hsent] at h
      cases h
    · rw [if_neg hsent] at h
      rw [if_pos ht] at h
      cases hjob : e.jobId with
      | none =>
        simp only [hjob] at h
        cases haj : addEmailJob sys id t now with
        | ok v s₂ =>
          simp only [haj] at h
          cases h
          exact congrArg some (addEmailJob_ok_val _ _ _ _ _ _ haj)
        | err m₀ s₂ =>
          simp only [haj] at h
          cases h
      | some j =>
        simp only [hjob] at h
        cases haj : addEmailJob (removeEmailJob sys j fault) id t now with
        | ok v s₂ =>
          simp only [haj] at h
          cases h
          exact congrArg some (addEmailJob_ok_val _ _ _ _ _ _ haj)
        | err m₀ s₂ =>
          simp only [haj] at h
          cases h

/-- Witness for C9: a concrete update moving a pending email from time 100 to
time 200 in in-process mode sets the record's jobId to the email's own id. -/
theorem c9_witness :
    (200 : Int) ≠ (100 : Int) ∧
    updateEmail
        { redisEnabled := false, sched := { jobs := [] }, queue := [] }
        (some { status := .PENDING, scheduledAt := 100, jobId := some "A" }) "A"
        (some 200) 50 none =
      .ok { status := .PENDING, scheduledAt := 200, jobId := some "A" }
        ({ redisEnabled := false, sched := { jobs := [("A", { scheduledAt := 200 })] },
            queue := [] },
          some { status := .PENDING, scheduledAt := 200, jobId := some "A" }) ∧
    ({ status := .PENDING, scheduledAt := 200, jobId := some "A" } : EmailRecord).jobId =
      some "A" :=
  ⟨by decide, by decide,
    c9_update_reschedules_via_add.2.2
      { redisEnabled := false, sched := { jobs := [] }, queue := [] }
      { status := .PENDING, scheduledAt := 100, jobId := some "A" } "A" 200 50 none
      { status := .PENDING, scheduledAt := 200, jobId := some "A" }
      ({ redisEnabled := false, sched := { jobs := [("A", { scheduledAt := 200 })] },
          queue := [] },
        some { status := .PENDING, scheduledAt := 200, jobId := some "A" })
      (by decide) (by decide)⟩
